import Mathlib

/-!
Shallow embedding of the core domain model of the SAPD backend
(`app/core/patterns/`): the component tree (composite.py), badge
decorators (decorator.py), scoring strategies (strategy.py), the
scorecard lifecycle state machine (state.py) and the weight-change
command history (command.py).

Python floats are modelled as exact rationals (`ℚ`); Python dicts keyed
by strings as `String → Option ℚ`; raised exceptions as `Option`/error
components of the return value. Where a claim's truth depends on the
rounding of binary64 floats rather than on the exact values (the 1 kg /
3 kg weighted-recyclability example), IEEE-754 double arithmetic is
modelled explicitly (`float64Round` and the `fl*` operations).
-/

namespace SAPD

/-- Badge kinds from decorator.py (FairTradeBadge, VeganBadge,
OekoTexBadge, NonCompliantBadge). -/
inductive Badge where
  | fairTrade
  | vegan
  | oekoTex
  | nonCompliant
deriving DecidableEq, Repr

/-- `get_score_modifier` of each badge class (SCORE_BONUS / SCORE_PENALTY). -/
def Badge.get_score_modifier : Badge → ℚ
  | .fairTrade => -5
  | .vegan => -3
  | .oekoTex => -4
  | .nonCompliant => 10

/-- The stored fields of `SimpleComponent` (composite.py). Defaults match
the Python constructor defaults. -/
structure SimpleComponent where
  name : String
  material : String
  weight_kg : ℚ
  environmental_impact : ℚ
  energy_consumption_mj : ℚ := 0
  water_usage_liters : ℚ := 0
  waste_generation_kg : ℚ := 0
  recyclability_score : ℚ := 0
  recycled_content_percentage : ℚ := 0
deriving DecidableEq, Repr

/-- The mapping returned by `get_impact_factors()`: keys energy, water,
waste, recyclability, recycled_content, weight_kg. -/
structure ImpactFactors where
  energy : ℚ
  water : ℚ
  waste : ℚ
  recyclability : ℚ
  recycled_content : ℚ
  weight_kg : ℚ
deriving DecidableEq, Repr

/-- The `ProductComponent` hierarchy: `SimpleComponent` leaves,
`CompositeProduct` nodes (with their own name/material/weight_kg
constructor fields and a children list) and `ProductDecorator` wrappers
(decorator.py), which hold one wrapped component. -/
inductive ProductComponent where
  | simple (c : SimpleComponent)
  | composite (name : String) (material : String) (weight_kg : ℚ)
      (children : List ProductComponent)
  | decorated (badge : Badge) (wrapped : ProductComponent)
deriving Repr

mutual

/-- Structural equality on components (Python compares components by
object identity; the model compares them by value). -/
def ProductComponent.decEq : (a b : ProductComponent) → Decidable (a = b)
  | .simple c1, .simple c2 =>
      decidable_of_iff (c1 = c2) (by simp)
  | .simple _, .composite _ _ _ _ => .isFalse (by intro h; cases h)
  | .simple _, .decorated _ _ => .isFalse (by intro h; cases h)
  | .composite _ _ _ _, .simple _ => .isFalse (by intro h; cases h)
  | .composite n1 m1 w1 cs1, .composite n2 m2 w2 cs2 =>
      have : Decidable (cs1 = cs2) := ProductComponent.listDecEq cs1 cs2
      decidable_of_iff (n1 = n2 ∧ m1 = m2 ∧ w1 = w2 ∧ cs1 = cs2) (by simp)
  | .composite _ _ _ _, .decorated _ _ => .isFalse (by intro h; cases h)
  | .decorated _ _, .simple _ => .isFalse (by intro h; cases h)
  | .decorated _ _, .composite _ _ _ _ => .isFalse (by intro h; cases h)
  | .decorated b1 w1, .decorated b2 w2 =>
      have : Decidable (w1 = w2) := ProductComponent.decEq w1 w2
      decidable_of_iff (b1 = b2 ∧ w1 = w2) (by simp)

def ProductComponent.listDecEq : (a b : List ProductComponent) → Decidable (a = b)
  | [], [] => .isTrue rfl
  | [], _ :: _ => .isFalse (by intro h; cases h)
  | _ :: _, [] => .isFalse (by intro h; cases h)
  | a :: as, b :: bs =>
      have : Decidable (a = b) := ProductComponent.decEq a b
      have : Decidable (as = bs) := ProductComponent.listDecEq as bs
      decidable_of_iff (a = b ∧ as = bs) (by simp)

end

instance : DecidableEq ProductComponent := ProductComponent.decEq

/-- `get_impact_factors` (composite.py / decorator.py).
A leaf returns its six stored values verbatim. A composite loops over its
children accumulating `total_energy`, `total_water`, `total_waste`,
`weighted_recyclability`, `weighted_recycled_content` and `total_weight`
(the loop's running sums are written here as `List.sum` of the per-child
terms, which is the same value since rational addition is associative and
commutative), then divides the weighted sums by `total_weight` when
`total_weight > 0` and otherwise reports `0.0` averages. A decorator
delegates to the wrapped component. -/
def ProductComponent.get_impact_factors : ProductComponent → ImpactFactors
  | .simple c =>
      { energy := c.energy_consumption_mj
        water := c.water_usage_liters
        waste := c.waste_generation_kg
        recyclability := c.recyclability_score
        recycled_content := c.recycled_content_percentage
        weight_kg := c.weight_kg }
  | .decorated _ w => w.get_impact_factors
  | .composite _ _ _ children =>
      let fs := children.attach.map fun c => c.1.get_impact_factors
      let total_energy := (fs.map (·.energy)).sum
      let total_water := (fs.map (·.water)).sum
      let total_waste := (fs.map (·.waste)).sum
      let weighted_recyclability :=
        (fs.map fun f => f.recyclability * f.weight_kg).sum
      let weighted_recycled_content :=
        (fs.map fun f => f.recycled_content * f.weight_kg).sum
      let total_weight := (fs.map (·.weight_kg)).sum
      if total_weight > 0 then
        { energy := total_energy
          water := total_water
          waste := total_waste
          recyclability := weighted_recyclability / total_weight
          recycled_content := weighted_recycled_content / total_weight
          weight_kg := total_weight }
      else
        { energy := total_energy
          water := total_water
          waste := total_waste
          recyclability := 0
          recycled_content := 0
          weight_kg := total_weight }
decreasing_by
  · simp_wf
  · simp_wf
    have := List.sizeOf_lt_of_mem c.2
    omega

/-- Total weight aggregated over the direct children of a composite. -/
def childWeightSum (children : List ProductComponent) : ℚ :=
  ((children.map ProductComponent.get_impact_factors).map (·.weight_kg)).sum

theorem energy_composite (n m : String) (w : ℚ)
    (children : List ProductComponent) :
    (ProductComponent.composite n m w children).get_impact_factors.energy =
      ((children.map ProductComponent.get_impact_factors).map (·.energy)).sum := by
  simp only [ProductComponent.get_impact_factors, List.attach_map_val]
  split <;> rfl

theorem weight_composite (n m : String) (w : ℚ)
    (children : List ProductComponent) :
    (ProductComponent.composite n m w children).get_impact_factors.weight_kg =
      childWeightSum children := by
  simp only [ProductComponent.get_impact_factors, childWeightSum,
    List.attach_map_val]
  split <;> rfl

theorem water_composite (n m : String) (w : ℚ)
    (children : List ProductComponent) :
    (ProductComponent.composite n m w children).get_impact_factors.water =
      ((children.map ProductComponent.get_impact_factors).map (·.water)).sum := by
  simp only [ProductComponent.get_impact_factors, List.attach_map_val]
  split <;> rfl

theorem waste_composite (n m : String) (w : ℚ)
    (children : List ProductComponent) :
    (ProductComponent.composite n m w children).get_impact_factors.waste =
      ((children.map ProductComponent.get_impact_factors).map (·.waste)).sum := by
  simp only [ProductComponent.get_impact_factors, List.attach_map_val]
  split <;> rfl

theorem recyclability_composite (n m : String) (w : ℚ)
    (children : List ProductComponent) :
    (ProductComponent.composite n m w children).get_impact_factors.recyclability =
      (if childWeightSum children > 0 then
        ((children.map ProductComponent.get_impact_factors).map
          fun f => f.recyclability * f.weight_kg).sum / childWeightSum children
      else 0) := by
  simp only [ProductComponent.get_impact_factors, childWeightSum,
    List.attach_map_val]
  split_ifs <;> rfl

theorem recycled_content_composite (n m : String) (w : ℚ)
    (children : List ProductComponent) :
    (ProductComponent.composite n m w children).get_impact_factors.recycled_content =
      (if childWeightSum children > 0 then
        ((children.map ProductComponent.get_impact_factors).map
          fun f => f.recycled_content * f.weight_kg).sum / childWeightSum children
      else 0) := by
  simp only [ProductComponent.get_impact_factors, childWeightSum,
    List.attach_map_val]
  split_ifs <;> rfl

/-- The descendant `SimpleComponent` leaves of a component, in traversal
order (decorators are transparent, composites concatenate children). -/
def ProductComponent.leaves : ProductComponent → List SimpleComponent
  | .simple c => [c]
  | .decorated _ w => w.leaves
  | .composite _ _ _ children =>
      (children.attach.map fun c => c.1.leaves).flatten
decreasing_by
  · simp_wf
  · simp_wf
    have := List.sizeOf_lt_of_mem c.2
    omega

theorem leaves_composite (n m : String) (w : ℚ)
    (children : List ProductComponent) :
    (ProductComponent.composite n m w children).leaves =
      (children.map ProductComponent.leaves).flatten := by
  simp only [ProductComponent.leaves, List.attach_map_val]

/-- Induction over the component tree. -/
theorem ProductComponent.inductionOn {P : ProductComponent → Prop}
    (hs : ∀ c, P (.simple c))
    (hd : ∀ b w, P w → P (.decorated b w))
    (hc : ∀ n m w children, (∀ c ∈ children, P c) → P (.composite n m w children)) :
    ∀ c, P c
  | .simple c => hs c
  | .decorated b w => hd b w (ProductComponent.inductionOn hs hd hc w)
  | .composite n m wt children => hc n m wt children
      (fun c hmem => ProductComponent.inductionOn hs hd hc c)
decreasing_by
  · simp_wf
  · simp_wf
    have := List.sizeOf_lt_of_mem hmem
    omega

theorem sum_map_flatten {α : Type} (L : List (List α)) (f : α → ℚ) :
    ((L.flatten).map f).sum = (L.map fun l => (l.map f).sum).sum := by
  induction L with
  | nil => simp
  | cons l ls ih => simp [ih, Function.comp_def]

/-- The additive factors (energy, water, waste, weight) of every node
equal the corresponding sums over its descendant leaves. -/
theorem factors_eq_leaf_sums (c : ProductComponent) :
    c.get_impact_factors.energy =
      (c.leaves.map (·.energy_consumption_mj)).sum ∧
    c.get_impact_factors.water =
      (c.leaves.map (·.water_usage_liters)).sum ∧
    c.get_impact_factors.waste =
      (c.leaves.map (·.waste_generation_kg)).sum ∧
    c.get_impact_factors.weight_kg =
      (c.leaves.map (·.weight_kg)).sum := by
  induction c using ProductComponent.inductionOn with
  | hs c => simp [ProductComponent.get_impact_factors, ProductComponent.leaves]
  | hd b w ih => simpa [ProductComponent.get_impact_factors,
      ProductComponent.leaves] using ih
  | hc n m w children ih =>
      rw [energy_composite, water_composite, waste_composite, weight_composite,
        childWeightSum, leaves_composite]
      rw [sum_map_flatten, sum_map_flatten, sum_map_flatten, sum_map_flatten]
      rw [List.map_map, List.map_map, List.map_map, List.map_map,
        List.map_map, List.map_map, List.map_map, List.map_map]
      refine ⟨?_, ?_, ?_, ?_⟩ <;>
        exact congrArg List.sum
          (List.map_congr_left fun c hmem => by
            have h := ih c hmem
            simp only [Function.comp]
            tauto)

/-- The two-leaf example from the spec: weights 1 kg and 3 kg,
recyclability scores 0.6 and 0.8. -/
def leafOneKg : ProductComponent :=
  .simple { name := "C1", material := "m1", weight_kg := 1,
            environmental_impact := 3, recyclability_score := 0.6 }

def leafThreeKg : ProductComponent :=
  .simple { name := "C2", material := "m2", weight_kg := 3,
            environmental_impact := 5, recyclability_score := 0.8 }

def exampleComposite : ProductComponent :=
  .composite "Product" "composite" 0 [leafOneKg, leafThreeKg]

/-- C1: for every composite node, `get_impact_factors()` returns energy,
water and waste as the sums of the (recursively aggregated) factors of its
children; `weight_kg` as the sum over children, which equals the sum of
all descendant leaf weights; and, whenever the aggregated total weight is
positive, recyclability and recycled_content as the weight-weighted
averages `sum(child.factor * child.weight_kg) / sum(child.weight_kg)`
over the children. -/
theorem c1_composite_aggregation (n m : String) (w : ℚ)
    (children : List ProductComponent) :
    (ProductComponent.composite n m w children).get_impact_factors.energy =
      ((children.map ProductComponent.get_impact_factors).map (·.energy)).sum ∧
    (ProductComponent.composite n m w children).get_impact_factors.water =
      ((children.map ProductComponent.get_impact_factors).map (·.water)).sum ∧
    (ProductComponent.composite n m w children).get_impact_factors.waste =
      ((children.map ProductComponent.get_impact_factors).map (·.waste)).sum ∧
    (ProductComponent.composite n m w children).get_impact_factors.weight_kg =
      ((children.map ProductComponent.get_impact_factors).map (·.weight_kg)).sum ∧
    (ProductComponent.composite n m w children).get_impact_factors.weight_kg =
      ((ProductComponent.composite n m w children).leaves.map (·.weight_kg)).sum ∧
    (0 < ((children.map ProductComponent.get_impact_factors).map (·.weight_kg)).sum →
      (ProductComponent.composite n m w children).get_impact_factors.recyclability =
        ((children.map ProductComponent.get_impact_factors).map
          fun f => f.recyclability * f.weight_kg).sum /
        ((children.map ProductComponent.get_impact_factors).map (·.weight_kg)).sum ∧
      (ProductComponent.composite n m w children).get_impact_factors.recycled_content =
        ((children.map ProductComponent.get_impact_factors).map
          fun f => f.recycled_content * f.weight_kg).sum /
        ((children.map ProductComponent.get_impact_factors).map (·.weight_kg)).sum) := by
  refine ⟨energy_composite n m w children, water_composite n m w children,
    waste_composite n m w children, weight_composite n m w children,
    (factors_eq_leaf_sums _).2.2.2, fun h => ?_⟩
  rw [recyclability_composite, recycled_content_composite, childWeightSum]
  rw [if_pos h, if_pos h]
  exact ⟨rfl, rfl⟩

/-- Witness for C1 at the concrete two-leaf composite. -/
theorem c1_composite_aggregation_witness :
    exampleComposite.get_impact_factors.weight_kg = 4 ∧
    exampleComposite.get_impact_factors.recyclability = (0.6 * 1 + 0.8 * 3) / 4 := by
  have h := c1_composite_aggregation "Product" "composite" 0 [leafOneKg, leafThreeKg]
  have hw : 0 < (([leafOneKg, leafThreeKg].map
      ProductComponent.get_impact_factors).map (·.weight_kg)).sum := by
    norm_num [leafOneKg, leafThreeKg, ProductComponent.get_impact_factors]
  refine ⟨?_, ?_⟩
  · rw [show exampleComposite =
        ProductComponent.composite "Product" "composite" 0 [leafOneKg, leafThreeKg] from rfl,
      h.2.2.2.1]
    norm_num [leafOneKg, leafThreeKg, ProductComponent.get_impact_factors]
  · rw [show exampleComposite =
        ProductComponent.composite "Product" "composite" 0 [leafOneKg, leafThreeKg] from rfl,
      (h.2.2.2.2.2 hw).1]
    norm_num [leafOneKg, leafThreeKg, ProductComponent.get_impact_factors]

/-- C5: a composite whose aggregated total weight is zero reports
recyclability 0.0 and recycled_content 0.0 (the code takes the
`else` branch instead of dividing). -/
theorem c5_zero_weight_composite (n m : String) (w : ℚ)
    (children : List ProductComponent)
    (h : (ProductComponent.composite n m w children).get_impact_factors.weight_kg = 0) :
    (ProductComponent.composite n m w children).get_impact_factors.recyclability = 0 ∧
    (ProductComponent.composite n m w children).get_impact_factors.recycled_content = 0 := by
  rw [weight_composite] at h
  rw [recyclability_composite, recycled_content_composite, h]
  norm_num

/-- Witness for C5 at the empty composite. -/
theorem c5_zero_weight_composite_witness :
    (ProductComponent.composite "P" "composite" 0 []).get_impact_factors.weight_kg = 0 ∧
    (ProductComponent.composite "P" "composite" 0 []).get_impact_factors.recyclability = 0 ∧
    (ProductComponent.composite "P" "composite" 0 []).get_impact_factors.recycled_content = 0 := by
  have h : (ProductComponent.composite "P" "composite" 0 []).get_impact_factors.weight_kg = 0 := by
    rw [weight_composite]
    simp [childWeightSum]
  exact ⟨h, c5_zero_weight_composite "P" "composite" 0 [] h⟩

/-- Python's `round` (round half to even) on a rational. -/
def roundHalfEven (x : ℚ) : ℤ :=
  if x - ⌊x⌋ < 1 / 2 then ⌊x⌋
  else if x - ⌊x⌋ > 1 / 2 then ⌊x⌋ + 1
  else if 2 ∣ ⌊x⌋ then ⌊x⌋ else ⌊x⌋ + 1

/-- `round(x, 2)`: round to two decimal places. -/
def roundTo2 (x : ℚ) : ℚ := (roundHalfEven (x * 100) : ℚ) / 100

theorem roundHalfEven_nonneg {x : ℚ} (h : 0 ≤ x) : 0 ≤ roundHalfEven x := by
  have hfl : (0 : ℤ) ≤ ⌊x⌋ := Int.floor_nonneg.mpr h
  unfold roundHalfEven
  split_ifs <;> omega

theorem roundHalfEven_le {x : ℚ} {N : ℤ} (h : x ≤ N) : roundHalfEven x ≤ N := by
  have hfl : ⌊x⌋ ≤ N := by
    have := Int.floor_le_floor h
    simpa using this
  have hfl2 : (⌊x⌋ : ℚ) ≤ x := Int.floor_le x
  unfold roundHalfEven
  split_ifs with h1 h2 h3
  · exact hfl
  · have : (⌊x⌋ : ℚ) + 1 / 2 < x := by linarith
    have : (⌊x⌋ : ℚ) < N := by linarith
    have : ⌊x⌋ < N := by exact_mod_cast this
    omega
  · exact hfl
  · have heq : x - ⌊x⌋ = 1 / 2 := le_antisymm (not_lt.mp h2) (not_lt.mp h1)
    have : (⌊x⌋ : ℚ) < N := by linarith
    have : ⌊x⌋ < N := by exact_mod_cast this
    omega

theorem roundTo2_nonneg {x : ℚ} (h : 0 ≤ x) : 0 ≤ roundTo2 x := by
  unfold roundTo2
  have : (0 : ℤ) ≤ roundHalfEven (x * 100) :=
    roundHalfEven_nonneg (by nlinarith)
  have : (0 : ℚ) ≤ (roundHalfEven (x * 100) : ℚ) := by exact_mod_cast this
  linarith

theorem roundTo2_le_100 {x : ℚ} (h : x ≤ 100) : roundTo2 x ≤ 100 := by
  unfold roundTo2
  have h1 : roundHalfEven (x * 100) ≤ (10000 : ℤ) :=
    roundHalfEven_le (by push_cast; nlinarith)
  have h2 : (roundHalfEven (x * 100) : ℚ) ≤ 10000 := by exact_mod_cast h1
  linarith

/-- For positive `q`, the exponent `e` with `2 ^ e ≤ q < 2 ^ (e + 1)`
(the floor of the base-2 logarithm). -/
def ilog2 (q : ℚ) : ℤ := Int.log 2 q

/-- Round a rational to the nearest IEEE-754 binary64 value: scale into
[2^52, 2^53), round half to even, scale back (the subnormal and overflow
ranges never arise in the computations modelled here). -/
def float64Round (q : ℚ) : ℚ :=
  if q = 0 then 0
  else if 0 < q then
    (roundHalfEven (q * 2 ^ (52 - ilog2 q)) : ℚ) / 2 ^ (52 - ilog2 q)
  else
    -((roundHalfEven (-q * 2 ^ (52 - ilog2 (-q))) : ℚ) / 2 ^ (52 - ilog2 (-q)))

/-- binary64 multiplication: exact product, correctly rounded. -/
def flmul (a b : ℚ) : ℚ := float64Round (a * b)

/-- binary64 addition: exact sum, correctly rounded. -/
def fladd (a b : ℚ) : ℚ := float64Round (a + b)

/-- binary64 division: exact quotient, correctly rounded. -/
def fldiv (a b : ℚ) : ℚ := float64Round (a / b)

theorem ilog2_eq {q : ℚ} {e : ℤ} (hq : 0 < q)
    (h1 : (2 : ℚ) ^ e ≤ q) (h2 : q < 2 ^ (e + 1)) : ilog2 q = e := by
  unfold ilog2
  have hb : 1 < 2 := one_lt_two
  have hle : e ≤ Int.log 2 q := by
    rw [← Int.zpow_le_iff_le_log hb hq]
    exact_mod_cast h1
  have hlt : Int.log 2 q < e + 1 := by
    rw [← Int.lt_zpow_iff_log_lt hb hq]
    exact_mod_cast h2
  omega

theorem roundHalfEven_eq_floor {x : ℚ} {f : ℤ} (h1 : (f : ℚ) ≤ x)
    (h2 : x < f + 1) (h3 : x - f < 1 / 2) : roundHalfEven x = f := by
  have hfl : ⌊x⌋ = f := Int.floor_eq_iff.mpr ⟨h1, h2⟩
  unfold roundHalfEven
  rw [hfl, if_pos h3]

theorem roundHalfEven_eq_floor_add_one {x : ℚ} {f : ℤ} (h1 : (f : ℚ) ≤ x)
    (h2 : x < f + 1) (h3 : 1 / 2 < x - f) : roundHalfEven x = f + 1 := by
  have hfl : ⌊x⌋ = f := Int.floor_eq_iff.mpr ⟨h1, h2⟩
  unfold roundHalfEven
  rw [hfl, if_neg (not_lt.mpr h3.le), if_pos h3]

theorem roundHalfEven_tie_odd {x : ℚ} {f : ℤ} (h1 : (f : ℚ) ≤ x)
    (h2 : x < f + 1) (h3 : x - f = 1 / 2) (h4 : ¬(2 ∣ f)) :
    roundHalfEven x = f + 1 := by
  have hfl : ⌊x⌋ = f := Int.floor_eq_iff.mpr ⟨h1, by linarith [h3]⟩
  unfold roundHalfEven
  rw [hfl, if_neg (by rw [h3]; norm_num), if_neg (by rw [h3]; norm_num),
    if_neg h4]

theorem float64Round_eq {q : ℚ} {e m : ℤ} (hq : 0 < q)
    (h1 : (2 : ℚ) ^ e ≤ q) (h2 : q < 2 ^ (e + 1))
    (hm : roundHalfEven (q * 2 ^ (52 - e)) = m) :
    float64Round q = (m : ℚ) / 2 ^ (52 - e) := by
  have hlog : ilog2 q = e := ilog2_eq hq h1 h2
  unfold float64Round
  rw [if_neg hq.ne', if_pos hq, hlog, hm]

/-- The recyclability aggregation of composite.py run on the spec's
1 kg / 3 kg example under the program's actual IEEE-754 binary64
arithmetic: the source literals 0.6 and 0.8 denote the nearest doubles,
and each `+=`, `*` and `/` of the loop rounds its exact result to the
nearest double, in the loop's accumulation order
(`weighted_recyclability += 0.6 * 1.0`, then `+= 0.8 * 3.0`;
`total_weight += 1.0`, then `+= 3.0`; finally the division). -/
def c9FloatRecyclability : ℚ :=
  let lit06 := float64Round (6 / 10)
  let lit08 := float64Round (8 / 10)
  let wr1 := fladd 0 (flmul lit06 1)
  let wr2 := fladd wr1 (flmul lit08 3)
  let tw1 := fladd 0 1
  let tw2 := fladd tw1 3
  fldiv wr2 tw2

/-- Evaluation of the binary64 run of the 1 kg / 3 kg example: the
operations round, in order, to 0.6, 0.8, 0.6, 0.6, 2.4000000000000004,
3.0000000000000004, 1.0, 4.0 and finally 0.7500000000000001 - the double
6755399441055745 / 2^53. -/
theorem c9FloatRecyclability_eq :
    c9FloatRecyclability = 6755399441055745 / 9007199254740992 := by
  have h06 : float64Round (6 / 10) = 5404319552844595 / 9007199254740992 := by
    rw [float64Round_eq (e := -1) (m := 5404319552844595) (by norm_num)
      (by norm_num) (by norm_num)
      (roundHalfEven_eq_floor (f := 5404319552844595) (by norm_num)
        (by norm_num) (by norm_num))]
    norm_num
  have h08 : float64Round (8 / 10) = 3602879701896397 / 4503599627370496 := by
    rw [float64Round_eq (e := -1) (m := 7205759403792794) (by norm_num)
      (by norm_num) (by norm_num)
      (roundHalfEven_eq_floor_add_one (f := 7205759403792793) (by norm_num)
        (by norm_num) (by norm_num))]
    norm_num
  have hm1 : flmul (5404319552844595 / 9007199254740992) 1 =
      5404319552844595 / 9007199254740992 := by
    unfold flmul
    rw [float64Round_eq (e := -1) (m := 5404319552844595) (by norm_num)
      (by norm_num) (by norm_num)
      (roundHalfEven_eq_floor (f := 5404319552844595) (by norm_num)
        (by norm_num) (by norm_num))]
    norm_num
  have ha1 : fladd 0 (5404319552844595 / 9007199254740992) =
      5404319552844595 / 9007199254740992 := by
    unfold fladd
    rw [float64Round_eq (e := -1) (m := 5404319552844595) (by norm_num)
      (by norm_num) (by norm_num)
      (roundHalfEven_eq_floor (f := 5404319552844595) (by norm_num)
        (by norm_num) (by norm_num))]
    norm_num
  have hm2 : flmul (3602879701896397 / 4503599627370496) 3 =
      1351079888211149 / 562949953421312 := by
    unfold flmul
    rw [float64Round_eq (e := 1) (m := 5404319552844596) (by norm_num)
      (by norm_num) (by norm_num)
      (roundHalfEven_tie_odd (f := 5404319552844595) (by norm_num)
        (by norm_num) (by norm_num) (by decide))]
    norm_num
  have ha2 : fladd (5404319552844595 / 9007199254740992)
      (1351079888211149 / 562949953421312) =
      6755399441055745 / 2251799813685248 := by
    unfold fladd
    rw [float64Round_eq (e := 1) (m := 6755399441055745) (by norm_num)
      (by norm_num) (by norm_num)
      (roundHalfEven_eq_floor_add_one (f := 6755399441055744) (by norm_num)
        (by norm_num) (by norm_num))]
    norm_num
  have ht1 : fladd 0 1 = 1 := by
    unfold fladd
    rw [float64Round_eq (e := 0) (m := 4503599627370496) (by norm_num)
      (by norm_num) (by norm_num)
      (roundHalfEven_eq_floor (f := 4503599627370496) (by norm_num)
        (by norm_num) (by norm_num))]
    norm_num
  have ht2 : fladd 1 3 = 4 := by
    unfold fladd
    rw [float64Round_eq (e := 2) (m := 4503599627370496) (by norm_num)
      (by norm_num) (by norm_num)
      (roundHalfEven_eq_floor (f := 4503599627370496) (by norm_num)
        (by norm_num) (by norm_num))]
    norm_num
  have hd : fldiv (6755399441055745 / 2251799813685248) 4 =
      6755399441055745 / 9007199254740992 := by
    unfold fldiv
    rw [float64Round_eq (e := -1) (m := 6755399441055745) (by norm_num)
      (by norm_num) (by norm_num)
      (roundHalfEven_eq_floor (f := 6755399441055745) (by norm_num)
        (by norm_num) (by norm_num))]
    norm_num
  simp only [c9FloatRecyclability]
  rw [h06, h08, hm1, ha1, hm2, ha2, ht1, ht2, hd]

/-- C9 counterexample: under the program's binary64 float semantics the
1 kg / 3 kg example aggregates recyclability to a value that is not
0.75 exactly (Python prints it as 0.7500000000000001). -/
theorem c9_float_counterexample : c9FloatRecyclability ≠ 0.75 := by
  rw [c9FloatRecyclability_eq]
  norm_num

/-- C9 amended: the 1 kg / 3 kg example aggregates recyclability to
0.7500000000000001 - exactly the double 6755399441055745 / 2^53, one ulp
(2^-53) above 0.75 - under the program's binary64 arithmetic, and to
0.75 exactly in exact-rational arithmetic. -/
theorem c9_weighted_recyclability_amended :
    c9FloatRecyclability = 6755399441055745 / 9007199254740992 ∧
    c9FloatRecyclability - 0.75 = 1 / 2 ^ 53 ∧
    exampleComposite.get_impact_factors.recyclability = 0.75 := by
  refine ⟨c9FloatRecyclability_eq, by rw [c9FloatRecyclability_eq]; norm_num, ?_⟩
  rw [show exampleComposite =
      ProductComponent.composite "Product" "composite" 0 [leafOneKg, leafThreeKg] from rfl,
    recyclability_composite]
  norm_num [childWeightSum, leafOneKg, leafThreeKg,
    ProductComponent.get_impact_factors]

/-- `HiggIndexStrategy.calculate_score` (strategy.py): per-kg impacts,
three `max(0, 100 - value/benchmark*100)` sub-scores, weighted 45/30/25,
rounded to two decimals. -/
def HiggIndexStrategy.calculate_score (component : ProductComponent) : ℚ :=
  let factors := component.get_impact_factors
  let weight_kg := if factors.weight_kg ≤ 0 then 1 else factors.weight_kg
  let energy_per_kg := factors.energy / weight_kg
  let water_per_kg := factors.water / weight_kg
  let co2_per_kg := energy_per_kg * 0.15
  let co2_score := max 0 (100 - co2_per_kg / 15 * 100)
  let water_score := max 0 (100 - water_per_kg / 500 * 100)
  let energy_score := max 0 (100 - energy_per_kg / 100 * 100)
  let final_score := co2_score * 0.45 + water_score * 0.30 + energy_score * 0.25
  roundTo2 final_score

/-- `CarbonFootprintStrategy.calculate_score` (strategy.py). -/
def CarbonFootprintStrategy.calculate_score (component : ProductComponent) : ℚ :=
  let factors := component.get_impact_factors
  let weight_kg := if factors.weight_kg ≤ 0 then 1 else factors.weight_kg
  let energy_per_kg := factors.energy / weight_kg
  let co2_per_kg := energy_per_kg * 0.15
  let total_penalty := co2_per_kg * 12
  let final_score := 100 - total_penalty
  roundTo2 (max 0 (min 100 final_score))

/-- `CircularEconomyStrategy.calculate_score` (strategy.py). -/
def CircularEconomyStrategy.calculate_score (component : ProductComponent) : ℚ :=
  let factors := component.get_impact_factors
  let weight_kg := if factors.weight_kg ≤ 0 then 1 else factors.weight_kg
  let recyclability := factors.recyclability
  let recycled_content := factors.recycled_content
  let waste_per_kg := factors.waste / weight_kg
  let recyclability_norm :=
    if recyclability ≤ 1 then recyclability * 100 else recyclability
  let content_norm :=
    if recycled_content ≤ 1 then recycled_content * 100 else recycled_content
  let base_circularity_score := content_norm * 0.5 + recyclability_norm * 0.5
  let waste_score := max 0 (100 - waste_per_kg / 2 * 100)
  let final_score := base_circularity_score * 0.6 + waste_score * 0.4
  roundTo2 (max 0 (min 100 final_score))

/-- All six impact fields are non-negative. -/
def ImpactFactors.Nonneg (f : ImpactFactors) : Prop :=
  0 ≤ f.energy ∧ 0 ≤ f.water ∧ 0 ≤ f.waste ∧
  0 ≤ f.recyclability ∧ 0 ≤ f.recycled_content ∧ 0 ≤ f.weight_kg

/-- Every stored impact field of every descendant leaf is non-negative. -/
def ProductComponent.nonnegFactors (c : ProductComponent) : Prop :=
  ∀ l ∈ c.leaves, 0 ≤ l.weight_kg ∧ 0 ≤ l.energy_consumption_mj ∧
    0 ≤ l.water_usage_liters ∧ 0 ≤ l.waste_generation_kg ∧
    0 ≤ l.recyclability_score ∧ 0 ≤ l.recycled_content_percentage

theorem get_impact_factors_nonneg (c : ProductComponent)
    (h : c.nonnegFactors) : c.get_impact_factors.Nonneg := by
  induction c using ProductComponent.inductionOn with
  | hs l =>
      have := h l (by simp [ProductComponent.leaves])
      simp only [ProductComponent.get_impact_factors, ImpactFactors.Nonneg]
      tauto
  | hd b w ih =>
      simp only [ProductComponent.get_impact_factors]
      apply ih
      intro l hl
      exact h l (by simpa [ProductComponent.leaves] using hl)
  | hc n m w children ih =>
      have hchild : ∀ c ∈ children, c.get_impact_factors.Nonneg := by
        intro c hc
        apply ih c hc
        intro l hl
        apply h l
        rw [leaves_composite, List.mem_flatten]
        exact ⟨c.leaves, List.mem_map_of_mem _ hc, hl⟩
      have hsum : ∀ g : ImpactFactors → ℚ,
          (∀ f : ImpactFactors, f.Nonneg → 0 ≤ g f) →
          0 ≤ ((children.map ProductComponent.get_impact_factors).map g).sum := by
        intro g hg
        apply List.sum_nonneg
        intro q hq
        simp only [List.map_map, List.mem_map] at hq
        obtain ⟨c, hc, rfl⟩ := hq
        exact hg _ (hchild c hc)
      refine ⟨?_, ?_, ?_, ?_, ?_, ?_⟩
      · rw [energy_composite]
        exact hsum _ fun f hf => hf.1
      · rw [water_composite]
        exact hsum _ fun f hf => hf.2.1
      · rw [waste_composite]
        exact hsum _ fun f hf => hf.2.2.1
      · rw [recyclability_composite]
        split_ifs with hpos
        · exact div_nonneg
            (hsum _ fun f hf => mul_nonneg hf.2.2.2.1 hf.2.2.2.2.2) hpos.le
        · exact le_refl 0
      · rw [recycled_content_composite]
        split_ifs with hpos
        · exact div_nonneg
            (hsum _ fun f hf => mul_nonneg hf.2.2.2.2.1 hf.2.2.2.2.2) hpos.le
        · exact le_refl 0
      · rw [weight_composite, childWeightSum]
        exact hsum _ fun f hf => hf.2.2.2.2.2

theorem subscore_bounds {x : ℚ} (hx : 0 ≤ x) :
    0 ≤ max 0 (100 - x) ∧ max 0 (100 - x) ≤ 100 :=
  ⟨le_max_left _ _, max_le (by norm_num) (by linarith)⟩

theorem clamp_bounds (s : ℚ) :
    0 ≤ max 0 (min 100 s) ∧ max 0 (min 100 s) ≤ 100 :=
  ⟨le_max_left _ _, max_le (by norm_num) (min_le_left _ _)⟩

/-- C2: on every component whose stored leaf factors are all
non-negative, the HiggIndex, CarbonFootprint and CircularEconomy scores
are in [0, 100]; in particular the HiggIndex weighted sum of the three
`max(0, ...)` sub-scores cannot exceed 100 although it is not
re-clamped. -/
theorem c2_scores_in_range (c : ProductComponent) (h : c.nonnegFactors) :
    (0 ≤ HiggIndexStrategy.calculate_score c ∧
      HiggIndexStrategy.calculate_score c ≤ 100) ∧
    (0 ≤ CarbonFootprintStrategy.calculate_score c ∧
      CarbonFootprintStrategy.calculate_score c ≤ 100) ∧
    (0 ≤ CircularEconomyStrategy.calculate_score c ∧
      CircularEconomyStrategy.calculate_score c ≤ 100) := by
  obtain ⟨he, hwat, hwas, hr, hrc, hwkg⟩ := get_impact_factors_nonneg c h
  refine ⟨?_, ?_, ?_⟩
  · simp only [HiggIndexStrategy.calculate_score]
    set F := c.get_impact_factors with hF
    set W := (if F.weight_kg ≤ 0 then (1 : ℚ) else F.weight_kg) with hW
    have hWpos : 0 < W := by
      rw [hW]
      split_ifs with hcond
      · norm_num
      · exact lt_of_not_le hcond
    have hE : 0 ≤ F.energy / W := div_nonneg he hWpos.le
    have hWa : 0 ≤ F.water / W := div_nonneg hwat hWpos.le
    have b1 := subscore_bounds (x := F.energy / W * 0.15 / 15 * 100)
      (by nlinarith)
    have b2 := subscore_bounds (x := F.water / W / 500 * 100)
      (by nlinarith)
    have b3 := subscore_bounds (x := F.energy / W / 100 * 100)
      (by nlinarith)
    constructor
    · apply roundTo2_nonneg
      nlinarith [b1.1, b2.1, b3.1]
    · apply roundTo2_le_100
      nlinarith [b1.2, b2.2, b3.2, b1.1, b2.1, b3.1]
  · simp only [CarbonFootprintStrategy.calculate_score]
    exact ⟨roundTo2_nonneg (clamp_bounds _).1, roundTo2_le_100 (clamp_bounds _).2⟩
  · simp only [CircularEconomyStrategy.calculate_score]
    exact ⟨roundTo2_nonneg (clamp_bounds _).1, roundTo2_le_100 (clamp_bounds _).2⟩

/-- Witness for C2 at the concrete 1 kg leaf. -/
theorem c2_scores_in_range_witness :
    leafOneKg.nonnegFactors ∧
    (0 ≤ HiggIndexStrategy.calculate_score leafOneKg ∧
      HiggIndexStrategy.calculate_score leafOneKg ≤ 100) ∧
    (0 ≤ CarbonFootprintStrategy.calculate_score leafOneKg ∧
      CarbonFootprintStrategy.calculate_score leafOneKg ≤ 100) ∧
    (0 ≤ CircularEconomyStrategy.calculate_score leafOneKg ∧
      CircularEconomyStrategy.calculate_score leafOneKg ≤ 100) := by
  have hnn : leafOneKg.nonnegFactors := by
    intro l hl
    simp only [leafOneKg, ProductComponent.leaves, List.mem_singleton] at hl
    subst hl
    norm_num
  exact ⟨hnn, c2_scores_in_range leafOneKg hnn⟩

/-- One visitor callback dispatched during `accept` (visitor.py):
`visit_simple_component` with the leaf, or `visit_composite_product`
with the composite's constructor data. -/
inductive VisitEvent where
  | visit_simple_component (c : SimpleComponent)
  | visit_composite_product (name : String) (material : String)
      (weight_kg : ℚ) (children : List ProductComponent)
deriving Repr

/-- The sequence of visitor callbacks fired by `accept` (composite.py /
decorator.py): a leaf dispatches itself to the visitor; a composite
dispatches itself first and then recurses into each child in order; a
decorator passes `accept` through to the wrapped node. -/
def ProductComponent.acceptTrace : ProductComponent → List VisitEvent
  | .simple c => [.visit_simple_component c]
  | .decorated _ w => w.acceptTrace
  | .composite n m wt children =>
      .visit_composite_product n m wt children ::
        (children.attach.map fun c => c.1.acceptTrace).flatten
decreasing_by
  · simp_wf
  · simp_wf
    have := List.sizeOf_lt_of_mem c.2
    omega

theorem get_impact_factors_decorated (b : Badge) (w : ProductComponent) :
    (ProductComponent.decorated b w).get_impact_factors =
      w.get_impact_factors := by
  simp [ProductComponent.get_impact_factors]

theorem acceptTrace_decorated (b : Badge) (w : ProductComponent) :
    (ProductComponent.decorated b w).acceptTrace = w.acceptTrace := by
  simp [ProductComponent.acceptTrace]

/-- Wrap a node in a chain of badge decorators, outermost badge first. -/
def wrapBadges (badges : List Badge) (c : ProductComponent) :
    ProductComponent :=
  badges.foldr .decorated c

/-- C6: stacking any number of badge decorators, in any order, leaves
both `get_impact_factors()` and the `accept(visitor)` dispatch sequence
of the wrapped node unchanged. -/
theorem c6_decorators_transparent (badges : List Badge)
    (c : ProductComponent) :
    (wrapBadges badges c).get_impact_factors = c.get_impact_factors ∧
    (wrapBadges badges c).acceptTrace = c.acceptTrace := by
  induction badges with
  | nil => exact ⟨rfl, rfl⟩
  | cons b bs ih =>
      have h1 : wrapBadges (b :: bs) c =
          .decorated b (wrapBadges bs c) := rfl
      rw [h1, get_impact_factors_decorated, acceptTrace_decorated]
      exact ih

/-- The four scorecard lifecycle states (state.py). -/
inductive ScorecardStateName where
  | Draft
  | InReview
  | Certified
  | Deprecated
deriving DecidableEq, Repr

/-- The four events a scorecard accepts. -/
inductive ScorecardEvent where
  | edit
  | submit_for_review
  | certify
  | deprecate
deriving DecidableEq, Repr

/-- Scorecard (state.py): id, product name, score and current state. -/
structure Scorecard where
  scorecard_id : String
  product_name : String
  score : ℚ
  state : ScorecardStateName
deriving DecidableEq, Repr

/-- `Scorecard.__init__`: a new scorecard starts in `DraftState`. -/
def Scorecard.create (scorecard_id product_name : String) (score : ℚ) :
    Scorecard :=
  { scorecard_id := scorecard_id, product_name := product_name,
    score := score, state := .Draft }

/-- Dispatch one event on a scorecard, mirroring the per-state handler
classes of state.py. The result is the scorecard object after the call
together with the message of the raised `InvalidStateTransitionError`,
if any; every raising handler in state.py raises before touching the
scorecard, so those branches return the scorecard unchanged. -/
def Scorecard.step (sc : Scorecard) : ScorecardEvent → Scorecard × Option String
  | e =>
    match sc.state, e with
    | .Draft, .edit => (sc, none)
    | .Draft, .submit_for_review => ({ sc with state := .InReview }, none)
    | .Draft, .certify => (sc, some "Cannot certify a draft scorecard")
    | .Draft, .deprecate => (sc, some "Cannot deprecate a draft scorecard")
    | .InReview, .edit => ({ sc with state := .Draft }, none)
    | .InReview, .submit_for_review => (sc, some "Already in review")
    | .InReview, .certify => ({ sc with state := .Certified }, none)
    | .InReview, .deprecate =>
        (sc, some "Cannot deprecate a scorecard in review")
    | .Certified, .edit => (sc, some "Cannot edit a certified scorecard")
    | .Certified, .submit_for_review => (sc, some "Already certified")
    | .Certified, .certify => (sc, some "Already certified")
    | .Certified, .deprecate => ({ sc with state := .Deprecated }, none)
    | .Deprecated, .edit => (sc, some "Cannot edit a deprecated scorecard")
    | .Deprecated, .submit_for_review =>
        (sc, some "Cannot submit deprecated scorecard")
    | .Deprecated, .certify => (sc, some "Cannot certify deprecated scorecard")
    | .Deprecated, .deprecate => (sc, some "Already deprecated")

/-- The five legal (state, event) pairs of the transition table. -/
def legalTransition : ScorecardStateName → ScorecardEvent → Bool
  | .Draft, .edit => true
  | .Draft, .submit_for_review => true
  | .InReview, .edit => true
  | .InReview, .certify => true
  | .Certified, .deprecate => true
  | _, _ => false

/-- C3: a scorecard is created in Draft; from Draft, certify and
deprecate raise `InvalidStateTransitionError` without changing the
scorecard while submit_for_review succeeds and yields InReview; and
Deprecated is terminal: all four events raise there and leave the
scorecard unchanged. -/
theorem c3_draft_and_deprecated (i p : String) (s : ℚ) :
    (Scorecard.create i p s).state = .Draft ∧
    ((Scorecard.create i p s).step .certify).2.isSome ∧
    ((Scorecard.create i p s).step .certify).1 = Scorecard.create i p s ∧
    ((Scorecard.create i p s).step .deprecate).2.isSome ∧
    ((Scorecard.create i p s).step .deprecate).1 = Scorecard.create i p s ∧
    ((Scorecard.create i p s).step .submit_for_review).2 = none ∧
    ((Scorecard.create i p s).step .submit_for_review).1.state = .InReview ∧
    (∀ sc : Scorecard, sc.state = .Deprecated → ∀ e : ScorecardEvent,
      (sc.step e).2.isSome ∧ (sc.step e).1 = sc) := by
  refine ⟨rfl, ?_, ?_, ?_, ?_, ?_, ?_, ?_⟩ <;>
    first
      | rfl
      | (intro sc hdep e
         obtain ⟨i2, p2, s2, st⟩ := sc
         simp only at hdep
         subst hdep
         cases e <;> simp [Scorecard.step])

/-- Witness for C3 at concrete inputs. -/
theorem c3_draft_and_deprecated_witness :
    (Scorecard.create "SC-1" "Shirt" 80).state = .Draft ∧
    ((Scorecard.create "SC-1" "Shirt" 80).step .certify).2.isSome ∧
    ((⟨"SC-2", "Shirt", 80, .Deprecated⟩ : Scorecard).state = .Deprecated) ∧
    ((⟨"SC-2", "Shirt", 80, .Deprecated⟩ : Scorecard).step .edit).2.isSome ∧
    ((⟨"SC-2", "Shirt", 80, .Deprecated⟩ : Scorecard).step .edit).1 =
      (⟨"SC-2", "Shirt", 80, .Deprecated⟩ : Scorecard) := by
  have h := c3_draft_and_deprecated "SC-1" "Shirt" 80
  have h2 := h.2.2.2.2.2.2.2 ⟨"SC-2", "Shirt", 80, .Deprecated⟩ rfl .edit
  exact ⟨h.1, h.2.1, rfl, h2.1, h2.2⟩

/-- C4: every (state, event) pair outside the five-row transition table
raises `InvalidStateTransitionError` and leaves the scorecard — state,
score, product name and id — wholly unchanged. -/
theorem c4_illegal_events_raise_and_preserve (sc : Scorecard)
    (e : ScorecardEvent) (h : legalTransition sc.state e = false) :
    (sc.step e).2.isSome ∧ (sc.step e).1 = sc := by
  obtain ⟨i, p, s, st⟩ := sc
  simp only at h
  cases st <;> cases e <;> simp_all [Scorecard.step, legalTransition]

/-- Witness for C4: certify from Draft is illegal, raises and preserves. -/
theorem c4_illegal_events_raise_and_preserve_witness :
    legalTransition (Scorecard.create "SC-1" "Shirt" 80).state .certify = false ∧
    ((Scorecard.create "SC-1" "Shirt" 80).step .certify).2.isSome ∧
    ((Scorecard.create "SC-1" "Shirt" 80).step .certify).1 =
      Scorecard.create "SC-1" "Shirt" 80 := by
  have h := c4_illegal_events_raise_and_preserve
    (Scorecard.create "SC-1" "Shirt" 80) .certify rfl
  exact ⟨rfl, h.1, h.2⟩

/-- The weight-configuration dict (command.py's `config: dict[str, float]`),
as a partial map from criterion name to weight. -/
abbrev Config := String → Option ℚ

/-- UpdateWeightCommand (command.py): criterion name, new weight, and the
`_old_weight` slot, `None` until `execute` records the prior value (or
the key's absence) there. -/
structure UpdateWeightCommand where
  criterion_name : String
  new_weight : ℚ
  old_weight : Option ℚ := none
deriving DecidableEq, Repr

/-- `UpdateWeightCommand.execute`: record the key's previous value
(absence as `None`) in `_old_weight`, then write the new weight. Returns
the mutated command object alongside the mutated config. -/
def UpdateWeightCommand.execute (cmd : UpdateWeightCommand)
    (config : Config) : UpdateWeightCommand × Config :=
  ({ cmd with old_weight := config cmd.criterion_name },
   fun k => if k = cmd.criterion_name then some cmd.new_weight else config k)

/-- `UpdateWeightCommand.undo`: when `_old_weight` is `None` the key is
deleted (`del` raises KeyError, modelled as `none`, if the key is
absent); otherwise the old value is restored. -/
def UpdateWeightCommand.undo (cmd : UpdateWeightCommand)
    (config : Config) : Option Config :=
  match cmd.old_weight with
  | none =>
      match config cmd.criterion_name with
      | none => none
      | some _ =>
          some fun k => if k = cmd.criterion_name then none else config k
  | some w =>
      some fun k => if k = cmd.criterion_name then some w else config k

/-- CommandHistory (command.py): the executed-command log `_history`
(the paired `datetime.now()` timestamps are outside the model) and the
redo stack `_undo_stack`. -/
structure CommandHistory where
  history : List UpdateWeightCommand
  undo_stack : List UpdateWeightCommand

/-- `CommandHistory.execute`: run the command, append it to `_history`
and clear `_undo_stack`. -/
def CommandHistory.execute (h : CommandHistory)
    (cmd : UpdateWeightCommand) (config : Config) :
    CommandHistory × Config :=
  let r := cmd.execute config
  ({ history := h.history ++ [r.1], undo_stack := [] }, r.2)

/-- `CommandHistory.undo`: with an empty `_history` it returns `False`
changing nothing; otherwise it pops the most recent command, calls its
`undo` and pushes it on `_undo_stack`. The outer `none` models the
KeyError that `command.undo()` can raise. -/
def CommandHistory.undo (h : CommandHistory) (config : Config) :
    Option (Bool × CommandHistory × Config) :=
  match h.history.getLast? with
  | none => some (false, h, config)
  | some cmd =>
      match cmd.undo config with
      | none => none
      | some config2 =>
          some (true,
            { history := h.history.dropLast,
              undo_stack := h.undo_stack ++ [cmd] },
            config2)

/-- `CommandHistory.redo`: with an empty `_undo_stack` it returns `False`
changing nothing; otherwise it pops the most recently undone command,
re-executes it and appends it to `_history`. -/
def CommandHistory.redo (h : CommandHistory) (config : Config) :
    Bool × CommandHistory × Config :=
  match h.undo_stack.getLast? with
  | none => (false, h, config)
  | some cmd =>
      let r := cmd.execute config
      (true,
        { history := h.history ++ [r.1],
          undo_stack := h.undo_stack.dropLast },
        r.2)

/-- `get_history_log`: the audit view of `_history`, one entry per logged
command (the description/timestamp rendering is dropped from the model;
entries are in one-to-one correspondence). -/
def CommandHistory.get_history_log (h : CommandHistory) :
    List UpdateWeightCommand :=
  h.history

/-- C7: on a fresh history, execute-then-undo restores the configuration
exactly (including absence of the key), redo-after-undo restores the
post-execute configuration exactly, and undo/redo on empty stacks return
`False` without raising and without touching the configuration. -/
theorem c7_undo_redo_roundtrip (config : Config) (key : String) (w : ℚ)
    (h : CommandHistory) :
    (∃ h2 : CommandHistory,
      (CommandHistory.execute ⟨[], []⟩ ⟨key, w, none⟩ config).1.undo
          (CommandHistory.execute ⟨[], []⟩ ⟨key, w, none⟩ config).2 =
        some (true, h2, config) ∧
      (h2.redo config).1 = true ∧
      (h2.redo config).2.2 =
        (CommandHistory.execute ⟨[], []⟩ ⟨key, w, none⟩ config).2) ∧
    (h.history = [] → h.undo config = some (false, h, config)) ∧
    (h.undo_stack = [] → h.redo config = (false, h, config)) := by
  refine ⟨?_, ?_, ?_⟩
  · refine ⟨⟨[], [⟨key, w, config key⟩]⟩, ?_, ?_, ?_⟩
    · show CommandHistory.undo
        ⟨[⟨key, w, config key⟩], []⟩
        (fun k => if k = key then some w else config k) = _
      rw [CommandHistory.undo]
      simp only [List.getLast?_singleton]
      rcases hck : config key with _ | v
      · rw [UpdateWeightCommand.undo]
        simp only [hck, if_pos rfl]
        have hcfg : (fun k =>
            if k = key then none
            else if k = key then some w else config k) = config := by
          funext k
          by_cases hk : k = key
          · simp [hk, hck]
          · simp [hk]
        simp [hcfg, List.dropLast]
      · rw [UpdateWeightCommand.undo]
        simp only [hck]
        have hcfg : (fun k =>
            if k = key then some v
            else if k = key then some w else config k) = config := by
          funext k
          by_cases hk : k = key
          · simp [hk, hck]
          · simp [hk]
        simp [hcfg, List.dropLast]
    · rfl
    · rfl
  · intro hh
    rw [CommandHistory.undo, hh]
    rfl
  · intro hu
    rw [CommandHistory.redo, hu]
    rfl

/-- Witness for C7 at a concrete configuration and key. -/
theorem c7_undo_redo_roundtrip_witness :
    (∃ h2 : CommandHistory,
      (CommandHistory.execute ⟨[], []⟩ ⟨"energy", 2, none⟩
          (fun _ => none)).1.undo
          (CommandHistory.execute ⟨[], []⟩ ⟨"energy", 2, none⟩
            (fun _ => none)).2 =
        some (true, h2, fun _ => none) ∧
      (h2.redo (fun _ => none)).1 = true ∧
      (h2.redo (fun _ => none)).2.2 =
        (CommandHistory.execute ⟨[], []⟩ ⟨"energy", 2, none⟩
          (fun _ => none)).2) ∧
    ((⟨[], [⟨"water", 1, none⟩]⟩ : CommandHistory).history = []) ∧
    ((⟨[], [⟨"water", 1, none⟩]⟩ : CommandHistory).undo (fun _ => none) =
      some (false, ⟨[], [⟨"water", 1, none⟩]⟩, fun _ => none)) := by
  have h := c7_undo_redo_roundtrip (fun _ => none) "energy" 2
    ⟨[], [⟨"water", 1, none⟩]⟩
  exact ⟨h.1, rfl, h.2.1 rfl⟩

/-- C8 counterexample: one `execute` followed by one `undo` shrinks the
history log from one entry back to zero, so an entry already in the log
is removed and the log does not only grow. -/
theorem c8_counterexample :
    ((CommandHistory.execute ⟨[], []⟩ ⟨"energy", 1, none⟩
        (fun _ => none)).1.get_history_log.length = 1) ∧
    (((CommandHistory.execute ⟨[], []⟩ ⟨"energy", 1, none⟩
          (fun _ => none)).1.undo
        (CommandHistory.execute ⟨[], []⟩ ⟨"energy", 1, none⟩
          (fun _ => none)).2).map
      (fun r => r.2.1.get_history_log.length) = some 0) := by
  constructor
  · rfl
  · rfl

/-- C8 amended: the history log grows only by appending at the end
(execute and redo each append exactly one entry) and shrinks only
through `undo`, which removes exactly the most recent entry. -/
theorem c8_amended_log_discipline (h : CommandHistory) (config : Config)
    (cmd : UpdateWeightCommand) :
    ((h.execute cmd config).1.get_history_log =
      h.get_history_log ++
        [{ cmd with old_weight := config cmd.criterion_name }]) ∧
    (∀ (b : Bool) (h2 : CommandHistory) (c2 : Config),
      h.undo config = some (b, h2, c2) →
        h2.get_history_log = h.get_history_log ∨
        h2.get_history_log = h.get_history_log.dropLast) ∧
    (∀ (b : Bool) (h2 : CommandHistory) (c2 : Config),
      h.redo config = (b, h2, c2) →
        h2.get_history_log = h.get_history_log ∨
        ∃ c : UpdateWeightCommand,
          h2.get_history_log = h.get_history_log ++ [c]) := by
  refine ⟨rfl, ?_, ?_⟩
  · intro b h2 c2 hu
    rw [CommandHistory.undo] at hu
    rcases hlast : h.history.getLast? with _ | cmd2 <;> rw [hlast] at hu <;>
      dsimp only at hu
    · simp only [Option.some.injEq, Prod.mk.injEq] at hu
      left
      rw [← hu.2.1]
    · rcases hundo : cmd2.undo config with _ | cfg <;> rw [hundo] at hu <;>
        dsimp only at hu
      · cases hu
      · simp only [Option.some.injEq, Prod.mk.injEq] at hu
        right
        rw [← hu.2.1]
        rfl
  · intro b h2 c2 hr
    rw [CommandHistory.redo] at hr
    rcases hlast : h.undo_stack.getLast? with _ | cmd2 <;> rw [hlast] at hr <;>
      dsimp only at hr
    · simp only [Prod.mk.injEq] at hr
      left
      rw [← hr.2.1]
    · simp only [Prod.mk.injEq] at hr
      right
      exact ⟨(cmd2.execute config).1, by rw [← hr.2.1]; rfl⟩

/-- Witness for C8's amended statement: undo on an empty history leaves
the (empty) log unchanged. -/
theorem c8_amended_log_discipline_witness :
    ((⟨[], []⟩ : CommandHistory).undo (fun _ => none) =
      some (false, ⟨[], []⟩, fun _ => none)) ∧
    (((⟨[], []⟩ : CommandHistory).get_history_log =
        (⟨[], []⟩ : CommandHistory).get_history_log) ∨
      ((⟨[], []⟩ : CommandHistory).get_history_log =
        (⟨[], []⟩ : CommandHistory).get_history_log.dropLast)) := by
  refine ⟨rfl, ?_⟩
  exact (c8_amended_log_discipline ⟨[], []⟩ (fun _ => none)
    ⟨"e", 1, none⟩).2.1 false ⟨[], []⟩ (fun _ => none) rfl

/-- `CompositeProduct.remove` (composite.py) delegates to Python's
`list.remove`, which deletes the first matching element and raises
`ValueError` (modelled as `none`) when no element matches. -/
def CompositeProduct.remove (children : List ProductComponent)
    (component : ProductComponent) : Option (List ProductComponent) :=
  match children with
  | [] => none
  | x :: xs =>
      if x = component then some xs
      else (CompositeProduct.remove xs component).map (x :: ·)

/-- C10: removing an absent component errors rather than silently
no-opping; removing a present component deletes exactly the first
occurrence, keeping the remaining children and their order intact. -/
theorem c10_remove_first_occurrence (children : List ProductComponent)
    (component : ProductComponent) :
    (component ∉ children →
      CompositeProduct.remove children component = none) ∧
    (component ∈ children →
      ∃ l1 l2, children = l1 ++ component :: l2 ∧ component ∉ l1 ∧
        CompositeProduct.remove children component = some (l1 ++ l2)) := by
  induction children with
  | nil => simp [CompositeProduct.remove]
  | cons x xs ih =>
      constructor
      · intro hni
        have hx : ¬(x = component) := fun hcontr => hni (hcontr ▸ List.mem_cons_self x xs)
        have hni2 : component ∉ xs := fun hmem => hni (List.mem_cons_of_mem x hmem)
        rw [CompositeProduct.remove]
        simp [hx, ih.1 hni2]
      · intro hmem
        by_cases hx : x = component
        · subst hx
          refine ⟨[], xs, by simp, by simp, ?_⟩
          rw [CompositeProduct.remove]
          simp
        · have hmem2 : component ∈ xs := by
            rcases List.mem_cons.mp hmem with hcontr | hok
            · exact absurd hcontr.symm hx
            · exact hok
          obtain ⟨l1, l2, heq, hni1, hrm⟩ := ih.2 hmem2
          refine ⟨x :: l1, l2, by simp [heq], ?_, ?_⟩
          · intro hcontr
            rcases List.mem_cons.mp hcontr with hcontr2 | hok
            · exact hx hcontr2.symm
            · exact hni1 hok
          · rw [CompositeProduct.remove]
            simp [hx, hrm]

/-- Witness for C10: removing the 3 kg leaf from the two-leaf children
list, and removing from an empty children list. -/
theorem c10_remove_first_occurrence_witness :
    (leafThreeKg ∈ [leafOneKg, leafThreeKg] ∧
      ∃ l1 l2, [leafOneKg, leafThreeKg] = l1 ++ leafThreeKg :: l2 ∧
        leafThreeKg ∉ l1 ∧
        CompositeProduct.remove [leafOneKg, leafThreeKg] leafThreeKg =
          some (l1 ++ l2)) ∧
    (leafOneKg ∉ ([] : List ProductComponent) ∧
      CompositeProduct.remove [] leafOneKg = none) := by
  have hm : leafThreeKg ∈ [leafOneKg, leafThreeKg] := by simp
  have hn : leafOneKg ∉ ([] : List ProductComponent) := by simp
  exact ⟨⟨hm, (c10_remove_first_occurrence [leafOneKg, leafThreeKg] leafThreeKg).2 hm⟩,
    ⟨hn, (c10_remove_first_occurrence [] leafOneKg).1 hn⟩⟩

end SAPD
